import Mathlib

/-!
Shallow embedding of the `foxsi4-science-tools-py` repository.

Embedded source files:
* `foxsi4_science_tools_py/download/sdo_download.py` — the fetch-and-retry
  controller (`sdo_download`, `fido_download`, `handle_retries`);
* `foxsi4_science_tools_py/io/load_yaml.py` — the configuration loader
  (`load_yaml`, `load_obs_info`);
* `foxsi4_science_tools_py/__init__.py` — the module-level `obsInfo` global.

Modelling choices:
* The external sunpy collaborator (`Fido.search` / `Fido.fetch`) is opaque:
  it is represented by an environment `Env` of arbitrary functions, and every
  call issued against it is recorded in an event trace (`Event`).
* The mutable Python list `needed_files` is modelled with an explicit heap:
  `Store` maps references (`Ref`, allocation indices) to list contents, so
  in-place mutation and aliasing are observable.
* The filesystem seen by `os.makedirs` is the set (list) of existing
  directory paths; `os.path.join` is string concatenation with a separator.
* `yaml.safe_load` is an opaque parser oracle (`YamlLib`); the file contents
  readable by `open` are an oracle `ConfigFS`.
* Python exceptions that the embedded code can surface (KeyError on a
  missing config key, FileExistsError, file-open and parse errors) are
  modelled with `Except String`.
-/

namespace Foxsi4

/-- Opaque failure records produced by the external transfer collaborator. -/
abbrev Err := String

/-- One batch of failure records, appended to `needed_files` as a single
element (Python appends the `.errors` list itself, it does not flatten). -/
abbrev Batch := List Err

/-- A reference to a Python list object: its allocation index in the store. -/
abbrev Ref := Nat

/-- The heap of `needed_files` list objects: contents indexed by `Ref`. -/
abbrev Store := List (List Batch)

/-- The set of directories that exist, as seen by `os.makedirs`. -/
abbrev FS := List String

/-- A channel selector: `a.Wavelength(wv)` (angstrom) for AIA channels, or
`a.Physobs(name)` for the secondary HMI product. -/
inductive Selector where
  | wavelength (wv : Nat)
  | physobs (name : String)
deriving DecidableEq, Repr

/-- One search query: the tuple `(a.Time(start, end), a.Instrument(inst), wave)`
passed to `Fido.search`. -/
structure Query where
  time_start : String
  time_end : String
  instrument : String
  selector : Selector
deriving DecidableEq, Repr

/-- The result object returned by `Fido.fetch`: successfully written file
paths plus a list of failure records (`.errors`). -/
structure FetchResult where
  paths : List String
  errors : List Err
deriving DecidableEq, Repr

/-- Observable calls issued by the controller: a `Fido.search`, the initial
`Fido.fetch` on a search response (with its `path` keyword), a retry
`Fido.fetch` on a previous result object, and an `os.makedirs` call. -/
inductive Event where
  | search (q : Query)
  | fetchInit (q : Query) (path : Option String)
  | refetchEv (fp : FetchResult)
  | mkdir (dir : String)
deriving DecidableEq, Repr

/-- The opaque external collaborator: `fetch0 q path` is the combined result
of `Fido.search(*q)` followed by `Fido.fetch(unifresp, path=path)`; `refetch`
is `Fido.fetch(results)` re-invoked on a previous result object. -/
structure Env where
  fetch0 : Query → Option String → FetchResult
  refetch : FetchResult → FetchResult

/-- Model of `os.path.join(a, b)` (separator normalisation is irrelevant to
the claims; paths are opaque tokens). -/
def os_path_join (a b : String) : String := a ++ "/" ++ b

/-- Model of `os.makedirs(name, exist_ok=...)`: raises `FileExistsError` when
the directory exists and `exist_ok` is false, otherwise ensures it exists. -/
def makedirs (fs : FS) (name : String) (exist_ok : Bool) : Except String FS :=
  if name ∈ fs then
    if exist_ok then .ok fs else .error "FileExistsError"
  else .ok (name :: fs)

/-- Pure shadow of `makedirs _ _ true`, which never fails. -/
def ensure_dir (fs : FS) (name : String) : FS :=
  if name ∈ fs then fs else name :: fs

/-- Embedding of `fido_download(search, fetch)` from `sdo_download.py`:
`unifresp = Fido.search(*search); filepaths = Fido.fetch(unifresp, **fetch)`.
The returned trace records the search call and the initial fetch call. -/
def fido_download (env : Env) (search : Query) (fetch : Option String) :
    FetchResult × List Event :=
  let filepaths := env.fetch0 search fetch
  (filepaths, [Event.search search, Event.fetchInit search fetch])

/-- Embedding of the retry loop body of `handle_retries`:
`for _ in range(tries): filepaths = Fido.fetch(filepaths); if filepaths.errors == []: break`.
Each retry fetch call is recorded with its argument. -/
def retry_loop (env : Env) : FetchResult → Nat → FetchResult × List Event
  | filepaths, 0 => (filepaths, [])
  | filepaths, tries + 1 =>
    let ev := Event.refetchEv filepaths
    let fp1 := env.refetch filepaths
    if fp1.errors = [] then (fp1, [ev])
    else
      let rec_out := retry_loop env fp1 tries
      (rec_out.1, ev :: rec_out.2)

/-- Embedding of `handle_retries(filepaths, tries=5, needed_files=None)`:
resolves `needed_files = [] if needed_files is None else needed_files`
(allocating a fresh empty list in the `None` case), runs the retry loop, and
if the final `.errors` list is non-empty appends it — as one element — to the
`needed_files` list object, in place. Returns the (reference to the) same
list object together with the retry-call trace. -/
def handle_retries (env : Env) (filepaths : FetchResult) (tries : Nat)
    (needed_files : Option Ref) (σ : Store) : (Ref × Store) × List Event :=
  let alloc : Ref × Store :=
    match needed_files with
    | none => (σ.length, σ ++ [[]])
    | some r => (r, σ)
  let r := alloc.1
  let σ0 := alloc.2
  let out := retry_loop env filepaths tries
  let σ1 :=
    if out.1.errors ≠ [] then σ0.set r (σ0.getD r [] ++ [out.1.errors]) else σ0
  ((r, σ1), out.2)

/-- Embedding of the per-channel loop of `sdo_download`
(`for inst, wave, wd in zip(instruments, waves, wave_dirs): ...`): for each
channel, ensure the output subdirectory, call `fido_download`, then
`handle_retries` on the shared `needed_files` list. A `makedirs` error
propagates (uncaught exception); nothing else can fail. -/
def channel_loop (env : Env) (time : String × String) (directory : String) :
    Ref → List (String × Selector × String) → FS → Store →
    Except String (FS × Store × List Event)
  | _, [], fs, σ => .ok (fs, σ, [])
  | r, c :: rest, fs, σ =>
    let curr_wdir := os_path_join directory c.2.2
    match makedirs fs curr_wdir true with
    | .error e => .error e
    | .ok fs1 =>
      let search : Query := ⟨time.1, time.2, c.1, c.2.1⟩
      let fetch := os_path_join curr_wdir "\x7bfile\x7d"
      let dl := fido_download env search (some fetch)
      let hr := handle_retries env dl.1 5 (some r) σ
      match channel_loop env time directory hr.1.1 rest fs1 hr.1.2 with
      | .error e => .error e
      | .ok (fs2, σ2, evs3) =>
        .ok (fs2, σ2, (Event.mkdir curr_wdir :: (dl.2 ++ hr.2)) ++ evs3)

/-- Python's `zip` over three sequences, truncating at the shortest. -/
def zip3 {α β γ : Type} : List α → List β → List γ → List (α × β × γ)
  | a :: as, b :: bs, c :: cs => (a, b, c) :: zip3 as bs cs
  | _, _, _ => []

/-- A YAML value as produced by `yaml.safe_load` (the fragment needed by the
configuration: scalars, sequences and string-keyed mappings). -/
inductive Yaml where
  | null
  | bool (b : Bool)
  | int (n : Int)
  | str (s : String)
  | seq (xs : List Yaml)
  | map (entries : List (String × Yaml))

/-- Python dict subscript `y[k]` on a mapping, as a partial lookup. -/
def Yaml.get? : Yaml → String → Option Yaml
  | .map es, k =>
    match es.find? (fun e => e.1 == k) with
    | some e => some e.2
    | none => none
  | _, _ => none

/-- Nested subscripting `y[k1][k2]...[kn]`. -/
def Yaml.getPath : Yaml → List String → Option Yaml
  | y, [] => some y
  | y, k :: ks =>
    match y.get? k with
    | some v => v.getPath ks
    | none => none

/-- The ambient process state seen by `sdo_download`: `os.getcwd()` and the
module-level `foxsi4_science_tools_py.obsInfo` configuration mapping. -/
structure Sys where
  cwd : String
  obsInfo : Yaml

/-- Lookup of `obsInfo["flare"]["time_of_interest"][which]["utc"]` as the
string it holds; `none` models the KeyError of a missing key. -/
def flare_time (info : Yaml) (which : String) : Option String :=
  match info.getPath ["flare", "time_of_interest", which, "utc"] with
  | some (.str s) => some s
  | _ => none

/-- The KeyError raised when a default-time lookup in `obsInfo` fails. -/
def KeyErr : String := "KeyError"

/-- The default channel list of `sdo_download` (source line 77). -/
def default_wave_values : List Nat := [94, 131, 171, 193, 211, 304, 335, 1600, 1700]

/-- Embedding of `sdo_download(start_time, end_time, directory, wave_values,
get_hmi)`: resolves the documented defaults, builds the per-channel
`instruments` / `waves` / `wave_dirs` lists (appending the HMI channel when
`get_hmi`), allocates the fresh `needed_files = []` list, and runs the
channel loop. Returns the reference to the `needed_files` list (the Python
return value), the final filesystem and store, and the call trace. -/
def sdo_download (sys : Sys) (env : Env) (fs : FS) (σ : Store)
    (start_time : Option String) (end_time : Option String)
    (directory : Option String) (wave_values : Option (List Nat))
    (get_hmi : Bool) : Except String (Ref × FS × Store × List Event) :=
  match (match start_time with
         | none => flare_time sys.obsInfo "start"
         | some s => some s) with
  | none => .error KeyErr
  | some start_time =>
    match (match end_time with
           | none => flare_time sys.obsInfo "end"
           | some s => some s) with
    | none => .error KeyErr
    | some end_time =>
      let directory := directory.getD sys.cwd
      let wave_values := wave_values.getD default_wave_values
      let waves := wave_values.map Selector.wavelength
      let wave_dirs := wave_values.map (fun wv => toString wv ++ "angstrom")
      let instruments := List.replicate waves.length "AIA"
      let instruments :=
        if get_hmi then instruments ++ ["hmi"] else instruments
      let waves :=
        if get_hmi then waves ++ [Selector.physobs "LOS_magnetic_field"] else waves
      let wave_dirs :=
        if get_hmi then wave_dirs ++ ["hmi"] else wave_dirs
      let r := σ.length
      match channel_loop env (start_time, end_time) directory r
          (zip3 instruments waves wave_dirs) fs (σ ++ [[]]) with
      | .error e => .error e
      | .ok (fs1, σ1, tr) => .ok (r, fs1, σ1, tr)

/-- The zero-argument invocation `sdo_download()`: Python fills the signature
defaults `(None, None, None, None, False)`. -/
def sdo_download_noargs (sys : Sys) (env : Env) (fs : FS) (σ : Store) :
    Except String (Ref × FS × Store × List Event) :=
  sdo_download sys env fs σ none none none none false

/-- The search queries recorded in a trace, in order of issue. -/
def searchQueries (tr : List Event) : List Query :=
  tr.filterMap (fun e => match e with | .search q => some q | _ => none)

/-- Oracle for the text contents `open(filename).read()` can deliver:
`none` models a missing or unreadable file (an OSError from `open`). -/
structure ConfigFS where
  read? : String → Option String

/-- Oracle for the external `yaml.safe_load` parser: `.error` models a
`YAMLError` on malformed input. -/
structure YamlLib where
  safe_load : String → Except String Yaml

/-- Embedding of `load_yaml(filename)` from `load_yaml.py`: open the file
(propagating the error when it is missing or unreadable), parse it with
`yaml.safe_load` (propagating a parse error). The second component records
the filenames this call attempted to open, in order. -/
def load_yaml (fs : ConfigFS) (lib : YamlLib) (filename : String) :
    Except String Yaml × List String :=
  match fs.read? filename with
  | none => (.error ("OSError: cannot open " ++ filename), [filename])
  | some text => (lib.safe_load text, [filename])

/-- The fixed relative location of the configuration file
(`.../observational-information/observation-parameters.yaml`, joined from the
`io` module directory in the source). -/
def obs_info_path : String :=
  "../../../observational-information/observation-parameters.yaml"

/-- Embedding of `load_obs_info()`: `load_yaml` at the fixed config path. -/
def load_obs_info (fs : ConfigFS) (lib : YamlLib) :
    Except String Yaml × List String :=
  load_yaml fs lib obs_info_path

/-- Embedding of the module-level `obsInfo = load_obs_info()` executed once
at package initialisation (`__init__.py`). -/
def obsInfo (fs : ConfigFS) (lib : YamlLib) : Except String Yaml × List String :=
  load_obs_info fs lib

/-- A parsed configuration containing the launch-time fields checked by
`test_load_yaml.py`: `flight.foxsi4.launch_time.utc` and `.clock`. -/
def launch_cfg : Yaml :=
  .map [("flight", .map [("foxsi4", .map [("launch_time",
    .map [("utc", .str "2024-04-17T22:13:00"), ("clock", .int 0)])])])]

/-! ### Store helper lemmas -/

theorem getD_set_self {α : Type} :
    ∀ (l : List α) (i : Nat) (x d : α), i < l.length → (l.set i x).getD i d = x := by
  intro l
  induction l with
  | nil => intro i x d h; simp at h
  | cons a as ih =>
    intro i x d h
    cases i with
    | zero => rfl
    | succ j =>
      have : j < as.length := by simpa using h
      simpa [List.set, List.getD] using ih j x d this

theorem getD_set_ne {α : Type} :
    ∀ (l : List α) (i j : Nat) (x d : α), j ≠ i → (l.set i x).getD j d = l.getD j d := by
  intro l
  induction l with
  | nil => intro i j x d _; rfl
  | cons a as ih =>
    intro i j x d hne
    cases i with
    | zero =>
      cases j with
      | zero => exact absurd rfl hne
      | succ k => rfl
    | succ i0 =>
      cases j with
      | zero => rfl
      | succ k =>
        have : k ≠ i0 := fun he => hne (by simp [he])
        simpa [List.set, List.getD] using ih i0 k x d this

theorem getD_append_self {α : Type} :
    ∀ (l m : List α) (x d : α), (l ++ (x :: m)).getD l.length d = x := by
  intro l
  induction l with
  | nil => intro m x d; rfl
  | cons a as ih => intro m x d; simpa [List.getD] using ih m x d

theorem getD_append_lt {α : Type} :
    ∀ (l m : List α) (j : Nat) (d : α), j < l.length → (l ++ m).getD j d = l.getD j d := by
  intro l
  induction l with
  | nil => intro m j d h; simp at h
  | cons a as ih =>
    intro m j d h
    cases j with
    | zero => rfl
    | succ k =>
      have : k < as.length := by simpa using h
      simpa [List.getD] using ih m k d this

/-! ### Retry loop characterisation -/

theorem retry_loop_zero (env : Env) (fp : FetchResult) :
    retry_loop env fp 0 = (fp, []) := rfl

theorem retry_loop_succ (env : Env) (fp : FetchResult) (n : Nat) :
    retry_loop env fp (n + 1) =
      (if (env.refetch fp).errors = [] then (env.refetch fp, [Event.refetchEv fp])
       else ((retry_loop env (env.refetch fp) n).1,
             Event.refetchEv fp :: (retry_loop env (env.refetch fp) n).2)) := by
  simp only [retry_loop]

theorem retry_loop_spec (env : Env) :
    ∀ (tries : Nat) (fp : FetchResult),
      (retry_loop env fp tries).1 = env.refetch^[(retry_loop env fp tries).2.length] fp ∧
      (retry_loop env fp tries).2.length ≤ tries ∧
      (1 ≤ tries → 1 ≤ (retry_loop env fp tries).2.length) ∧
      (∀ j, 1 ≤ j → j < (retry_loop env fp tries).2.length →
        (env.refetch^[j] fp).errors ≠ []) ∧
      ((retry_loop env fp tries).2.length < tries →
        (env.refetch^[(retry_loop env fp tries).2.length] fp).errors = []) := by
  intro tries
  induction tries with
  | zero =>
    intro fp
    refine ⟨rfl, Nat.le_refl 0, ?_, ?_, ?_⟩
    · intro h; exact absurd h (by decide)
    · intro j _ hj; simp [retry_loop_zero] at hj
    · intro h; simp [retry_loop_zero] at h
  | succ n ih =>
    intro fp
    by_cases h : (env.refetch fp).errors = []
    · rw [retry_loop_succ, if_pos h]
      refine ⟨by simp [Function.iterate_one], by simp, fun _ => by simp, ?_, ?_⟩
      · intro j hj1 hj2
        simp only [List.length_cons, List.length_nil] at hj2
        omega
      · intro _
        simpa [Function.iterate_one] using h
    · rw [retry_loop_succ, if_neg h]
      obtain ⟨ih1, ih2, _, ih4, ih5⟩ := ih (env.refetch fp)
      refine ⟨?_, ?_, fun _ => by simp, ?_, ?_⟩
      · simpa [Function.iterate_succ_apply] using ih1
      · simpa using Nat.succ_le_succ ih2
      · intro j hj1 hj2
        cases j with
        | zero => exact absurd hj1 (by decide)
        | succ k =>
          rw [Function.iterate_succ_apply]
          cases Nat.eq_zero_or_pos k with
          | inl hk => subst hk; simpa using h
          | inr hk =>
            have hklt : k < (retry_loop env (env.refetch fp) n).2.length := by
              simp only [List.length_cons] at hj2; omega
            exact ih4 k hk hklt
      · intro hlt
        have : (retry_loop env (env.refetch fp) n).2.length < n := by
          simp only [List.length_cons] at hlt; omega
        simpa [Function.iterate_succ_apply] using ih5 this

/-- If some round `M` within the budget clears the failures, the loop ends
with an empty failure list (it breaks at the first such round). -/
theorem retry_loop_clears (env : Env) :
    ∀ (tries : Nat) (fp : FetchResult) (M : Nat), 1 ≤ M → M ≤ tries →
      (env.refetch^[M] fp).errors = [] → (retry_loop env fp tries).1.errors = [] := by
  intro tries
  induction tries with
  | zero => intro fp M h1 h2 _; omega
  | succ n ih =>
    intro fp M h1 h2 hM
    by_cases h : (env.refetch fp).errors = []
    · rw [retry_loop_succ, if_pos h]; exact h
    · rw [retry_loop_succ, if_neg h]
      cases M with
      | zero => omega
      | succ k =>
        cases Nat.eq_zero_or_pos k with
        | inl hk =>
          subst hk
          exact absurd (by simpa [Function.iterate_one] using hM) h
        | inr hk =>
          have : (env.refetch^[k] (env.refetch fp)).errors = [] := by
            simpa [Function.iterate_succ_apply] using hM
          exact ih (env.refetch fp) k hk (by omega) this

/-! ### handle_retries unfoldings -/

theorem handle_retries_some (env : Env) (fp : FetchResult) (tries : Nat)
    (r : Ref) (σ : Store) :
    handle_retries env fp tries (some r) σ =
      ((r, if (retry_loop env fp tries).1.errors ≠ [] then
              σ.set r (σ.getD r [] ++ [(retry_loop env fp tries).1.errors])
            else σ),
       (retry_loop env fp tries).2) := rfl

theorem handle_retries_none (env : Env) (fp : FetchResult) (tries : Nat)
    (σ : Store) :
    handle_retries env fp tries none σ =
      ((σ.length, if (retry_loop env fp tries).1.errors ≠ [] then
              (σ ++ [[]]).set σ.length ((σ ++ [[]]).getD σ.length [] ++
                [(retry_loop env fp tries).1.errors])
            else σ ++ [[]]),
       (retry_loop env fp tries).2) := rfl

/-! ### zip3 and channel-list lemmas -/

theorem zip3_nils {α β γ : Type} (bs : List β) (cs : List γ) :
    zip3 ([] : List α) bs cs = [] := by
  cases bs <;> cases cs <;> rfl

theorem zip3_cons {α β γ : Type} (a : α) (b : β) (c : γ)
    (as : List α) (bs : List β) (cs : List γ) :
    zip3 (a :: as) (b :: bs) (c :: cs) = (a, b, c) :: zip3 as bs cs := rfl

theorem zip3_replicate_maps (s : String) (f : Nat → Selector) (g : Nat → String) :
    ∀ wvs : List Nat,
      zip3 (List.replicate (wvs.map f).length s) (wvs.map f) (wvs.map g) =
        wvs.map (fun wv => (s, f wv, g wv)) := by
  intro wvs
  induction wvs with
  | nil => rfl
  | cons w ws ih => simpa [List.replicate, zip3_cons] using ih

theorem zip3_append_one {α β γ : Type} :
    ∀ (as : List α) (bs : List β) (cs : List γ) (a : α) (b : β) (c : γ),
      as.length = bs.length → as.length = cs.length →
      zip3 (as ++ [a]) (bs ++ [b]) (cs ++ [c]) = zip3 as bs cs ++ [(a, b, c)] := by
  intro as
  induction as with
  | nil =>
    intro bs cs a b c hb hc
    cases bs with
    | nil =>
      cases cs with
      | nil => rfl
      | cons _ _ => simp at hc
    | cons _ _ => simp at hb
  | cons x xs ih =>
    intro bs cs a b c hb hc
    cases bs with
    | nil => simp at hb
    | cons y ys =>
      cases cs with
      | nil => simp at hc
      | cons z zs =>
        have hb1 : xs.length = ys.length := by simpa using hb
        have hc1 : xs.length = zs.length := by simpa using hc
        simp only [List.cons_append, zip3_cons, ih ys zs a b c hb1 hc1]

/-- The zipped channel list built by `sdo_download`, in closed form: the AIA
channels in the order of `wave_values`, then the HMI channel when asked. -/
theorem sdo_channels_eq (wvs : List Nat) (hmi : Bool) :
    zip3
      (if hmi then List.replicate (wvs.map Selector.wavelength).length "AIA" ++ ["hmi"]
       else List.replicate (wvs.map Selector.wavelength).length "AIA")
      (if hmi then wvs.map Selector.wavelength ++ [Selector.physobs "LOS_magnetic_field"]
       else wvs.map Selector.wavelength)
      (if hmi then wvs.map (fun wv => toString wv ++ "angstrom") ++ ["hmi"]
       else wvs.map (fun wv => toString wv ++ "angstrom")) =
    wvs.map (fun wv => ("AIA", Selector.wavelength wv, toString wv ++ "angstrom")) ++
      (if hmi then [("hmi", Selector.physobs "LOS_magnetic_field", "hmi")] else []) := by
  cases hmi with
  | false =>
    simpa using zip3_replicate_maps "AIA" Selector.wavelength (fun wv => toString wv ++ "angstrom") wvs
  | true =>
    simp only [if_pos]
    rw [zip3_append_one _ _ _ _ _ _ (by simp) (by simp),
        zip3_replicate_maps "AIA" Selector.wavelength (fun wv => toString wv ++ "angstrom") wvs]

/-! ### ensure_dir lemmas -/

theorem makedirs_exist_ok (fs : FS) (name : String) :
    makedirs fs name true = .ok (ensure_dir fs name) := by
  unfold makedirs ensure_dir
  by_cases h : name ∈ fs <;> simp [h]

theorem ensure_dir_mem_mono (fs : FS) (name d : String) (h : d ∈ fs) :
    d ∈ ensure_dir fs name := by
  unfold ensure_dir
  by_cases hm : name ∈ fs <;> simp [hm, h]

theorem ensure_dir_self_mem (fs : FS) (name : String) :
    name ∈ ensure_dir fs name := by
  unfold ensure_dir
  by_cases hm : name ∈ fs <;> simp [hm]

theorem ensure_dir_of_mem (fs : FS) (name : String) (h : name ∈ fs) :
    ensure_dir fs name = fs := by
  unfold ensure_dir
  simp [h]

/-! ### Trace lemmas -/

theorem searchQueries_retry (env : Env) :
    ∀ (tries : Nat) (fp : FetchResult), searchQueries (retry_loop env fp tries).2 = [] := by
  intro tries
  induction tries with
  | zero => intro fp; rfl
  | succ n ih =>
    intro fp
    by_cases h : (env.refetch fp).errors = []
    · rw [retry_loop_succ, if_pos h]; rfl
    · rw [retry_loop_succ, if_neg h]
      simpa [searchQueries] using ih (env.refetch fp)

theorem retry_loop_events (env : Env) :
    ∀ (tries : Nat) (fp : FetchResult) (e : Event), e ∈ (retry_loop env fp tries).2 →
      ∃ x, e = Event.refetchEv x := by
  intro tries
  induction tries with
  | zero => intro fp e he; simp [retry_loop_zero] at he
  | succ n ih =>
    intro fp e he
    by_cases h : (env.refetch fp).errors = []
    · rw [retry_loop_succ, if_pos h] at he
      simp at he
      exact ⟨fp, he⟩
    · rw [retry_loop_succ, if_neg h] at he
      simp only [List.mem_cons] at he
      cases he with
      | inl he0 => exact ⟨fp, he0⟩
      | inr he1 => exact ih (env.refetch fp) e he1

theorem searchQueries_append (t1 t2 : List Event) :
    searchQueries (t1 ++ t2) = searchQueries t1 ++ searchQueries t2 := by
  simp [searchQueries]

/-! ### channel_loop lemmas -/

theorem channel_loop_cons (env : Env) (time : String × String) (dir : String)
    (r : Ref) (c : String × Selector × String)
    (rest : List (String × Selector × String)) (fs : FS) (σ : Store) :
    channel_loop env time dir r (c :: rest) fs σ =
      (match channel_loop env time dir r rest
          (ensure_dir fs (os_path_join dir c.2.2))
          (handle_retries env
            (env.fetch0 ⟨time.1, time.2, c.1, c.2.1⟩
              (some (os_path_join (os_path_join dir c.2.2) "\x7bfile\x7d")))
            5 (some r) σ).1.2 with
       | .error e => .error e
       | .ok (fs2, σ2, evs3) =>
         .ok (fs2, σ2,
           (Event.mkdir (os_path_join dir c.2.2) ::
             ([Event.search ⟨time.1, time.2, c.1, c.2.1⟩,
               Event.fetchInit ⟨time.1, time.2, c.1, c.2.1⟩
                 (some (os_path_join (os_path_join dir c.2.2) "\x7bfile\x7d"))] ++
              (handle_retries env
                (env.fetch0 ⟨time.1, time.2, c.1, c.2.1⟩
                  (some (os_path_join (os_path_join dir c.2.2) "\x7bfile\x7d")))
                5 (some r) σ).2)) ++ evs3)) := by
  simp only [channel_loop, makedirs_exist_ok, fido_download]
  rfl

theorem channel_loop_spec (env : Env) (time : String × String) (dir : String) :
    ∀ (cs : List (String × Selector × String)) (r : Ref) (fs : FS) (σ : Store),
      r < σ.length →
      ∃ fs1 σ1 tr, channel_loop env time dir r cs fs σ = .ok (fs1, σ1, tr) ∧
        σ1.length = σ.length ∧
        (∃ extra, σ1.getD r [] = σ.getD r [] ++ extra) ∧
        (∀ j, j ≠ r → σ1.getD j [] = σ.getD j []) ∧
        searchQueries tr = cs.map (fun c => (⟨time.1, time.2, c.1, c.2.1⟩ : Query)) ∧
        (∀ d, d ∈ fs → d ∈ fs1) ∧
        (∀ c ∈ cs, os_path_join dir c.2.2 ∈ fs1) ∧
        ((∀ c ∈ cs, os_path_join dir c.2.2 ∈ fs) → fs1 = fs) := by
  intro cs
  induction cs with
  | nil =>
    intro r fs σ hr
    refine ⟨fs, σ, [], rfl, rfl, ⟨[], by simp⟩, fun j _ => rfl, rfl, fun d h => h, ?_, fun _ => rfl⟩
    intro c hc
    exact absurd hc (List.not_mem_nil c)
  | cons c rest ih =>
    intro r fs σ hr
    have hσb_len :
        ((handle_retries env
            (env.fetch0 ⟨time.1, time.2, c.1, c.2.1⟩
              (some (os_path_join (os_path_join dir c.2.2) "\x7bfile\x7d")))
            5 (some r) σ).1.2).length = σ.length := by
      rw [handle_retries_some]
      by_cases h : (retry_loop env
          (env.fetch0 ⟨time.1, time.2, c.1, c.2.1⟩
            (some (os_path_join (os_path_join dir c.2.2) "\x7bfile\x7d")))
          5).1.errors = [] <;> simp [h]
    have hσb_r :
        ∃ e0, ((handle_retries env
            (env.fetch0 ⟨time.1, time.2, c.1, c.2.1⟩
              (some (os_path_join (os_path_join dir c.2.2) "\x7bfile\x7d")))
            5 (some r) σ).1.2).getD r [] = σ.getD r [] ++ e0 := by
      rw [handle_retries_some]
      by_cases h : (retry_loop env
          (env.fetch0 ⟨time.1, time.2, c.1, c.2.1⟩
            (some (os_path_join (os_path_join dir c.2.2) "\x7bfile\x7d")))
          5).1.errors = []
      · exact ⟨[], by simp [h]⟩
      · refine ⟨[(retry_loop env
          (env.fetch0 ⟨time.1, time.2, c.1, c.2.1⟩
            (some (os_path_join (os_path_join dir c.2.2) "\x7bfile\x7d")))
          5).1.errors], ?_⟩
        simp only [h, ne_eq, not_false_eq_true, if_pos]
        exact getD_set_self σ r _ [] hr
    have hσb_j :
        ∀ j, j ≠ r → ((handle_retries env
            (env.fetch0 ⟨time.1, time.2, c.1, c.2.1⟩
              (some (os_path_join (os_path_join dir c.2.2) "\x7bfile\x7d")))
            5 (some r) σ).1.2).getD j [] = σ.getD j [] := by
      intro j hj
      rw [handle_retries_some]
      by_cases h : (retry_loop env
          (env.fetch0 ⟨time.1, time.2, c.1, c.2.1⟩
            (some (os_path_join (os_path_join dir c.2.2) "\x7bfile\x7d")))
          5).1.errors = []
      · simp [h]
      · simp only [h, ne_eq, not_false_eq_true, if_pos]
        exact getD_set_ne σ r j _ [] hj
    obtain ⟨fs2, σ2, tr3, hloop, hlen2, ⟨extra2, hint2⟩, hframe2, hsearch2, hmono2, hdirs2, hsame2⟩ :=
      ih r (ensure_dir fs (os_path_join dir c.2.2))
        (handle_retries env
          (env.fetch0 ⟨time.1, time.2, c.1, c.2.1⟩
            (some (os_path_join (os_path_join dir c.2.2) "\x7bfile\x7d")))
          5 (some r) σ).1.2 (by rw [hσb_len]; exact hr)
    refine ⟨fs2, σ2,
      (Event.mkdir (os_path_join dir c.2.2) ::
        ([Event.search ⟨time.1, time.2, c.1, c.2.1⟩,
          Event.fetchInit ⟨time.1, time.2, c.1, c.2.1⟩
            (some (os_path_join (os_path_join dir c.2.2) "\x7bfile\x7d"))] ++
         (handle_retries env
           (env.fetch0 ⟨time.1, time.2, c.1, c.2.1⟩
             (some (os_path_join (os_path_join dir c.2.2) "\x7bfile\x7d")))
           5 (some r) σ).2)) ++ tr3, ?_, ?_, ?_, ?_, ?_, ?_, ?_, ?_⟩
    · rw [channel_loop_cons, hloop]
    · rw [hlen2, hσb_len]
    · obtain ⟨e0, he0⟩ := hσb_r
      exact ⟨e0 ++ extra2, by rw [hint2, he0, List.append_assoc]⟩
    · intro j hj
      rw [hframe2 j hj, hσb_j j hj]
    · rw [searchQueries_append]
      have hq : searchQueries
          (Event.mkdir (os_path_join dir c.2.2) ::
            ([Event.search ⟨time.1, time.2, c.1, c.2.1⟩,
              Event.fetchInit ⟨time.1, time.2, c.1, c.2.1⟩
                (some (os_path_join (os_path_join dir c.2.2) "\x7bfile\x7d"))] ++
             (handle_retries env
               (env.fetch0 ⟨time.1, time.2, c.1, c.2.1⟩
                 (some (os_path_join (os_path_join dir c.2.2) "\x7bfile\x7d")))
               5 (some r) σ).2)) = [⟨time.1, time.2, c.1, c.2.1⟩] := by
        rw [handle_retries_some]
        simp only [searchQueries, List.filterMap_cons, List.filterMap_append]
        simp [searchQueries]
        intro a ha
        obtain ⟨x, rfl⟩ := retry_loop_events env 5 _ a ha
        rfl
      rw [hq, hsearch2]
      rfl
    · intro d hd
      exact hmono2 d (ensure_dir_mem_mono fs _ d hd)
    · intro c0 hc0
      cases hc0 with
      | head => exact hmono2 _ (ensure_dir_self_mem fs _)
      | tail _ h0 => exact hdirs2 c0 h0
    · intro hall
      have hcurr : os_path_join dir c.2.2 ∈ fs := hall c (List.mem_cons_self c rest)
      rw [ensure_dir_of_mem fs _ hcurr] at hsame2
      exact hsame2 (fun c0 h0 => hall c0 (List.mem_cons_of_mem c h0))

/-! ### sdo_download lemmas -/

theorem channel_loop_nil (env : Env) (time : String × String) (dir : String)
    (r : Ref) (fs : FS) (σ : Store) :
    channel_loop env time dir r [] fs σ = .ok (fs, σ, []) := rfl

theorem sdo_download_some_unfold (sys : Sys) (env : Env) (fs : FS) (σ : Store)
    (st et dir : String) (wvs : List Nat) (hmi : Bool) :
    sdo_download sys env fs σ (some st) (some et) (some dir) (some wvs) hmi =
      (match channel_loop env (st, et) dir σ.length
          (wvs.map (fun wv => ("AIA", Selector.wavelength wv, toString wv ++ "angstrom")) ++
            (if hmi then [("hmi", Selector.physobs "LOS_magnetic_field", "hmi")] else []))
          fs (σ ++ [[]]) with
       | .error e => .error e
       | .ok (fs1, σ1, tr) => .ok (σ.length, fs1, σ1, tr)) := by
  simp only [sdo_download, Option.getD_some]
  rw [sdo_channels_eq]

/-- C1: for every channel list `wave_values` of length N and every boolean
`get_hmi`, `sdo_download` issues exactly N initial search+fetch calls when
`get_hmi` is false and N+1 when it is true, one per channel, in the input
order of `wave_values`, with the secondary HMI channel last; this holds for
every behaviour of the external collaborator (`env`), so failures of earlier
channels never abort or skip a later channel's initial fetch. -/
theorem sdo_download_searches_per_channel (sys : Sys) (env : Env) (fs : FS)
    (σ : Store) (st et dir : String) (wvs : List Nat) (hmi : Bool) :
    ∃ r fs1 σ1 tr,
      sdo_download sys env fs σ (some st) (some et) (some dir) (some wvs) hmi =
        .ok (r, fs1, σ1, tr) ∧
      searchQueries tr =
        wvs.map (fun wv => (⟨st, et, "AIA", Selector.wavelength wv⟩ : Query)) ++
          (if hmi then [(⟨st, et, "hmi", Selector.physobs "LOS_magnetic_field"⟩ : Query)]
           else []) ∧
      (searchQueries tr).length = wvs.length + (if hmi then 1 else 0) := by
  obtain ⟨fs1, σ1, tr, hloop, _, _, _, hsearch, _, _, _⟩ :=
    channel_loop_spec env (st, et) dir
      (wvs.map (fun wv => ("AIA", Selector.wavelength wv, toString wv ++ "angstrom")) ++
        (if hmi then [("hmi", Selector.physobs "LOS_magnetic_field", "hmi")] else []))
      σ.length fs (σ ++ [[]]) (by simp)
  refine ⟨σ.length, fs1, σ1, tr, ?_, ?_, ?_⟩
  · rw [sdo_download_some_unfold, hloop]
  · rw [hsearch]
    cases hmi <;> simp [List.map_map, Function.comp]
  · rw [hsearch]
    cases hmi <;> simp

/-- C5: calling `sdo_download` with `wave_values=[]` and `get_hmi=False`
issues zero calls against the external collaborator (the trace is empty) and
the returned `needed_files` list is empty. -/
theorem sdo_download_empty_wave_values (sys : Sys) (env : Env) (fs : FS)
    (σ : Store) (st et dir : String) :
    sdo_download sys env fs σ (some st) (some et) (some dir) (some []) false =
      .ok (σ.length, fs, σ ++ [[]], []) ∧
    (σ ++ [[]]).getD σ.length [] = [] := by
  constructor
  · rw [sdo_download_some_unfold]
    simp [channel_loop_nil]
  · exact getD_append_self σ [] [] []

/-- C6: with all arguments omitted, the documented defaults apply: the
channel list defaults to the fixed nine-value list, `get_hmi` to false,
`directory` to the current working directory, and the time window to the
flare time-of-interest start/end UTC fields of the shared configuration
mapping (a missing field surfaces as a KeyError). -/
theorem sdo_download_defaults (sys : Sys) (env : Env) (fs : FS) (σ : Store) :
    (sdo_download_noargs sys env fs σ =
      (match flare_time sys.obsInfo "start" with
       | none => .error KeyErr
       | some st =>
         match flare_time sys.obsInfo "end" with
         | none => .error KeyErr
         | some et =>
           sdo_download sys env fs σ (some st) (some et) (some sys.cwd)
             (some default_wave_values) false)) ∧
    default_wave_values = [94, 131, 171, 193, 211, 304, 335, 1600, 1700] ∧
    default_wave_values.length = 9 := by
  refine ⟨?_, rfl, rfl⟩
  cases h1 : flare_time sys.obsInfo "start" with
  | none => simp [sdo_download_noargs, sdo_download, h1]
  | some st =>
    cases h2 : flare_time sys.obsInfo "end" with
    | none => simp [sdo_download_noargs, sdo_download, h1, h2]
    | some et => simp [sdo_download_noargs, sdo_download, h1, h2]

/-- C2 (amended): `handle_retries` enters the retry loop unconditionally; it
re-issues fetch on the evolving result object at most `tries` times (at least
once when `tries ≥ 1`), checking the failure list after each fetch and
stopping the first time it is empty: every round strictly before the last
still had failures, and if the loop stopped before exhausting `tries` the
final failure list is empty. -/
theorem handle_retries_retry_policy (env : Env) (fp : FetchResult) (tries : Nat)
    (nf : Option Ref) (σ : Store) :
    (handle_retries env fp tries nf σ).2 = (retry_loop env fp tries).2 ∧
    (retry_loop env fp tries).1 =
      env.refetch^[(retry_loop env fp tries).2.length] fp ∧
    (retry_loop env fp tries).2.length ≤ tries ∧
    (1 ≤ tries → 1 ≤ (retry_loop env fp tries).2.length) ∧
    (∀ j, 1 ≤ j → j < (retry_loop env fp tries).2.length →
      (env.refetch^[j] fp).errors ≠ []) ∧
    ((retry_loop env fp tries).2.length < tries →
      (env.refetch^[(retry_loop env fp tries).2.length] fp).errors = []) := by
  obtain ⟨h1, h2, h3, h4, h5⟩ := retry_loop_spec env tries fp
  refine ⟨?_, h1, h2, h3, h4, h5⟩
  cases nf <;> rfl

theorem handle_retries_retry_policy_witness :
    (handle_retries ⟨fun _ _ => ⟨[], []⟩, fun fp => fp⟩ ⟨[], ["e"]⟩ 5 none []).2 =
      (retry_loop ⟨fun _ _ => ⟨[], []⟩, fun fp => fp⟩ ⟨[], ["e"]⟩ 5).2 ∧
    1 ≤ (retry_loop ⟨fun _ _ => ⟨[], []⟩, fun fp => fp⟩ ⟨[], ["e"]⟩ 5).2.length :=
  ⟨(handle_retries_retry_policy ⟨fun _ _ => ⟨[], []⟩, fun fp => fp⟩
      ⟨[], ["e"]⟩ 5 none []).1,
   (handle_retries_retry_policy ⟨fun _ _ => ⟨[], []⟩, fun fp => fp⟩
      ⟨[], ["e"]⟩ 5 none []).2.2.2.1 (by decide)⟩

/-- C2 counterexample: with an initially empty failure list and the default
`tries = 5`, `handle_retries` still issues one retry fetch — the loop body
runs before the emptiness check — refuting the claim that no retry fetch is
issued when the initial failure list is empty. -/
theorem handle_retries_gating_counterexample :
    ((handle_retries ⟨fun _ _ => ⟨[], []⟩, fun fp => fp⟩ ⟨[], []⟩ 5 none []).2).length = 1 :=
  rfl

/-- C3: after the retry loop, the residual failure list is appended to the
`needed_files` list as exactly one batch if and only if it is non-empty;
in particular a channel whose failures clear at some round `M ≤ tries`
contributes no entry. The function is total: residual failures are reported
in the returned list, never raised. -/
theorem handle_retries_residual_batch (env : Env) (fp : FetchResult) (tries : Nat)
    (r : Ref) (σ : Store) (h : r < σ.length) :
    ((handle_retries env fp tries (some r) σ).1.2).getD r [] =
      σ.getD r [] ++
        (if (retry_loop env fp tries).1.errors = [] then []
         else [(retry_loop env fp tries).1.errors]) ∧
    ((∃ M, 1 ≤ M ∧ M ≤ tries ∧ (env.refetch^[M] fp).errors = []) →
      ((handle_retries env fp tries (some r) σ).1.2).getD r [] = σ.getD r []) := by
  constructor
  · rw [handle_retries_some]
    by_cases hres : (retry_loop env fp tries).1.errors = []
    · simp [hres]
    · simp only [hres, ne_eq, not_false_eq_true, if_pos, if_neg]
      rw [getD_set_self σ r _ [] h]
  · rintro ⟨M, h1, h2, h3⟩
    have hclear := retry_loop_clears env tries fp M h1 h2 h3
    rw [handle_retries_some]
    simp [hclear]

theorem handle_retries_residual_batch_witness :
    ((handle_retries ⟨fun _ _ => ⟨[], []⟩, fun _ => ⟨[], []⟩⟩ ⟨[], ["x"]⟩ 5
        (some 0) [[]]).1.2).getD 0 [] = ([[]] : Store).getD 0 [] :=
  (handle_retries_residual_batch ⟨fun _ _ => ⟨[], []⟩, fun _ => ⟨[], []⟩⟩
      ⟨[], ["x"]⟩ 5 0 [[]] (by decide)).2
    ⟨1, by decide, by decide, by simp [Function.iterate_one]⟩

/-- C4: the `needed_files` accumulator grows monotonically across the channel
loop: processing any suffix of channels leaves the entries already present as
a prefix of the final contents (it only appends), keeps the store size fixed,
and leaves every other list object in the store untouched. -/
theorem channel_loop_needed_files_monotone (env : Env) (time : String × String)
    (dir : String) (cs : List (String × Selector × String)) (r : Ref) (fs : FS)
    (σ : Store) (h : r < σ.length) :
    ∃ fs1 σ1 tr, channel_loop env time dir r cs fs σ = .ok (fs1, σ1, tr) ∧
      σ1.length = σ.length ∧
      (∃ extra, σ1.getD r [] = σ.getD r [] ++ extra) ∧
      (∀ j, j ≠ r → σ1.getD j [] = σ.getD j []) := by
  obtain ⟨fs1, σ1, tr, h1, h2, h3, h4, _, _, _, _⟩ :=
    channel_loop_spec env time dir cs r fs σ h
  exact ⟨fs1, σ1, tr, h1, h2, h3, h4⟩

theorem channel_loop_needed_files_monotone_witness :
    ∃ fs1 σ1 tr,
      channel_loop ⟨fun _ _ => ⟨[], ["x"]⟩, fun fp => fp⟩ ("s", "e") "d" 0
          [("AIA", Selector.wavelength 94, "94angstrom")] [] [[]] =
        .ok (fs1, σ1, tr) ∧
      σ1.length = ([[]] : Store).length ∧
      (∃ extra, σ1.getD 0 [] = ([[]] : Store).getD 0 [] ++ extra) ∧
      (∀ j, j ≠ 0 → σ1.getD j [] = ([[]] : Store).getD j []) :=
  channel_loop_needed_files_monotone ⟨fun _ _ => ⟨[], ["x"]⟩, fun fp => fp⟩
    ("s", "e") "d" [("AIA", Selector.wavelength 94, "94angstrom")] 0 [] [[]]
    (by decide)

/-- C7: per-channel directory creation is idempotent: `os.makedirs` with
`exist_ok=True` (as the controller calls it) succeeds unchanged on an
existing directory, and a second `sdo_download` invocation with the same
`directory`, run on the filesystem the first invocation produced, succeeds
and creates no new directory. -/
theorem sdo_download_mkdir_idempotent (sys : Sys) (env : Env) (fs : FS)
    (σ σ2 : Store) (st et dir : String) (wvs : List Nat) (hmi : Bool) :
    (∀ (fsx : FS) (p : String), p ∈ fsx → makedirs fsx p true = .ok fsx) ∧
    ∃ r fs1 σ1 tr,
      sdo_download sys env fs σ (some st) (some et) (some dir) (some wvs) hmi =
        .ok (r, fs1, σ1, tr) ∧
      ∃ r2 fs2 σ3 tr2,
        sdo_download sys env fs1 σ2 (some st) (some et) (some dir) (some wvs) hmi =
          .ok (r2, fs2, σ3, tr2) ∧ fs2 = fs1 := by
  constructor
  · intro fsx p hp
    rw [makedirs_exist_ok, ensure_dir_of_mem fsx p hp]
  · obtain ⟨fs1, σ1, tr, hloop1, _, _, _, _, _, hdirs1, _⟩ :=
      channel_loop_spec env (st, et) dir
        (wvs.map (fun wv => ("AIA", Selector.wavelength wv, toString wv ++ "angstrom")) ++
          (if hmi then [("hmi", Selector.physobs "LOS_magnetic_field", "hmi")] else []))
        σ.length fs (σ ++ [[]]) (by simp)
    obtain ⟨fs2, σ3, tr2, hloop2, _, _, _, _, _, _, hsame2⟩ :=
      channel_loop_spec env (st, et) dir
        (wvs.map (fun wv => ("AIA", Selector.wavelength wv, toString wv ++ "angstrom")) ++
          (if hmi then [("hmi", Selector.physobs "LOS_magnetic_field", "hmi")] else []))
        σ2.length fs1 (σ2 ++ [[]]) (by simp)
    refine ⟨σ.length, fs1, σ1, tr, ?_, σ2.length, fs2, σ3, tr2, ?_, ?_⟩
    · rw [sdo_download_some_unfold, hloop1]
    · rw [sdo_download_some_unfold, hloop2]
    · exact hsame2 hdirs1

theorem sdo_download_mkdir_idempotent_witness :
    makedirs ["d/94angstrom"] "d/94angstrom" true = .ok ["d/94angstrom"] :=
  (sdo_download_mkdir_idempotent ⟨"cwd", .null⟩ ⟨fun _ _ => ⟨[], []⟩, fun fp => fp⟩
      [] [] [] "s" "e" "d" [94] false).1
    ["d/94angstrom"] "d/94angstrom" (by decide)

/-- C10: when `handle_retries` receives an existing `needed_files` list it
returns that same list object (the same reference), mutated in place — the
store keeps its size, every other list object is untouched, and the object's
contents are only extended; when it receives `None` it allocates a fresh
empty list (a reference not previously in the store) and returns it, holding
exactly the residual batch if any. -/
theorem handle_retries_inplace_aliasing (env : Env) (fp : FetchResult)
    (tries : Nat) (σ : Store) :
    (∀ r, r < σ.length →
      (handle_retries env fp tries (some r) σ).1.1 = r ∧
      ((handle_retries env fp tries (some r) σ).1.2).length = σ.length ∧
      (∃ extra, ((handle_retries env fp tries (some r) σ).1.2).getD r [] =
        σ.getD r [] ++ extra) ∧
      (∀ j, j ≠ r →
        ((handle_retries env fp tries (some r) σ).1.2).getD j [] = σ.getD j [])) ∧
    ((handle_retries env fp tries none σ).1.1 = σ.length ∧
     ((handle_retries env fp tries none σ).1.2).length = σ.length + 1 ∧
     (∀ j, j < σ.length →
       ((handle_retries env fp tries none σ).1.2).getD j [] = σ.getD j []) ∧
     ((handle_retries env fp tries none σ).1.2).getD σ.length [] =
       (if (retry_loop env fp tries).1.errors = [] then []
        else [(retry_loop env fp tries).1.errors])) := by
  constructor
  · intro r hr
    refine ⟨rfl, ?_, ?_, ?_⟩
    · rw [handle_retries_some]
      by_cases hres : (retry_loop env fp tries).1.errors = [] <;> simp [hres]
    · rw [handle_retries_some]
      by_cases hres : (retry_loop env fp tries).1.errors = []
      · exact ⟨[], by simp [hres]⟩
      · refine ⟨[(retry_loop env fp tries).1.errors], ?_⟩
        simp only [hres, ne_eq, not_false_eq_true, if_pos]
        exact getD_set_self σ r _ [] hr
    · intro j hj
      rw [handle_retries_some]
      by_cases hres : (retry_loop env fp tries).1.errors = []
      · simp [hres]
      · simp only [hres, ne_eq, not_false_eq_true, if_pos]
        exact getD_set_ne σ r j _ [] hj
  · refine ⟨rfl, ?_, ?_, ?_⟩
    · rw [handle_retries_none]
      by_cases hres : (retry_loop env fp tries).1.errors = [] <;> simp [hres]
    · intro j hj
      rw [handle_retries_none]
      by_cases hres : (retry_loop env fp tries).1.errors = []
      · simp only [hres, ne_eq, not_true_eq_false, if_neg, not_false_eq_true]
        exact getD_append_lt σ [[]] j [] hj
      · simp only [hres, ne_eq, not_false_eq_true, if_pos]
        rw [getD_set_ne (σ ++ [[]]) σ.length j _ [] (Nat.ne_of_lt hj)]
        exact getD_append_lt σ [[]] j [] hj
    · rw [handle_retries_none]
      by_cases hres : (retry_loop env fp tries).1.errors = []
      · simp only [hres, ne_eq, not_true_eq_false, if_neg, not_false_eq_true]
        exact getD_append_self σ [] [] []
      · simp only [hres, ne_eq, not_false_eq_true, if_pos]
        rw [getD_set_self (σ ++ [[]]) σ.length _ [] (by simp)]
        rw [getD_append_self σ [] [] []]
        simp [hres]

theorem handle_retries_inplace_aliasing_witness :
    (handle_retries ⟨fun _ _ => ⟨[], []⟩, fun fp => fp⟩ ⟨[], ["x"]⟩ 5
        (some 0) [[]]).1.1 = 0 ∧
    (handle_retries ⟨fun _ _ => ⟨[], []⟩, fun fp => fp⟩ ⟨[], ["x"]⟩ 5
        none []).1.1 = 0 :=
  ⟨((handle_retries_inplace_aliasing ⟨fun _ _ => ⟨[], []⟩, fun fp => fp⟩
      ⟨[], ["x"]⟩ 5 [[]]).1 0 (by decide)).1,
   (handle_retries_inplace_aliasing ⟨fun _ _ => ⟨[], []⟩, fun fp => fp⟩
      ⟨[], ["x"]⟩ 5 []).2.1⟩

/-- C8: the configuration loader propagates an error to the caller when the
file is missing/unreadable or when the parse fails; it succeeds exactly when
both the open and the parse succeed (no retry, no default fallback value);
it attempts exactly one file open; and the package-initialisation global
`obsInfo` is one `load_yaml` call at the fixed configuration path. -/
theorem load_yaml_error_propagation (fs : ConfigFS) (lib : YamlLib) (f : String) :
    (fs.read? f = none → ∃ e, (load_yaml fs lib f).1 = .error e) ∧
    (∀ text e, fs.read? f = some text → lib.safe_load text = .error e →
      (load_yaml fs lib f).1 = .error e) ∧
    (∀ v, (load_yaml fs lib f).1 = .ok v ↔
      ∃ text, fs.read? f = some text ∧ lib.safe_load text = .ok v) ∧
    (load_yaml fs lib f).2 = [f] ∧
    obsInfo fs lib = load_yaml fs lib obs_info_path := by
  refine ⟨?_, ?_, ?_, ?_, rfl⟩
  · intro h
    unfold load_yaml
    rw [h]
    exact ⟨_, rfl⟩
  · intro text e h1 h2
    unfold load_yaml
    rw [h1]
    exact h2
  · intro v
    constructor
    · intro hv
      unfold load_yaml at hv
      cases hread : fs.read? f with
      | none =>
        rw [hread] at hv
        exact absurd hv (fun hx => Except.noConfusion hx)
      | some text =>
        rw [hread] at hv
        exact ⟨text, rfl, hv⟩
    · rintro ⟨text, h1, h2⟩
      unfold load_yaml
      rw [h1]
      exact h2
  · unfold load_yaml
    cases fs.read? f <;> rfl

theorem load_yaml_error_propagation_witness :
    (∃ e, (load_yaml ⟨fun _ => none⟩ ⟨fun _ => .ok .null⟩ "cfg.yaml").1 = .error e) ∧
    (load_yaml ⟨fun _ => some "t"⟩ ⟨fun _ => .error "bad"⟩ "cfg.yaml").1 = .error "bad" ∧
    (load_yaml ⟨fun _ => some "t"⟩ ⟨fun _ => .error "bad"⟩ "cfg.yaml").2 = ["cfg.yaml"] :=
  ⟨(load_yaml_error_propagation ⟨fun _ => none⟩ ⟨fun _ => .ok .null⟩ "cfg.yaml").1 rfl,
   (load_yaml_error_propagation ⟨fun _ => some "t"⟩ ⟨fun _ => .error "bad"⟩
      "cfg.yaml").2.1 "t" "bad" rfl rfl,
   (load_yaml_error_propagation ⟨fun _ => some "t"⟩ ⟨fun _ => .error "bad"⟩
      "cfg.yaml").2.2.2.1⟩

/-- C9: loading a well-formed configuration file whose parse contains
`flight.foxsi4.launch_time.utc = "2024-04-17T22:13:00"` and
`flight.foxsi4.launch_time.clock = 0` yields the nested mapping unchanged,
so both values are retrievable via nested key lookup. -/
theorem load_obs_info_launch_values (fs : ConfigFS) (lib : YamlLib)
    (text : String) (cfg : Yaml)
    (h1 : fs.read? obs_info_path = some text)
    (h2 : lib.safe_load text = .ok cfg)
    (h3 : cfg.getPath ["flight", "foxsi4", "launch_time", "utc"] =
      some (.str "2024-04-17T22:13:00"))
    (h4 : cfg.getPath ["flight", "foxsi4", "launch_time", "clock"] =
      some (.int 0)) :
    ∃ m, (load_obs_info fs lib).1 = .ok m ∧
      m.getPath ["flight", "foxsi4", "launch_time", "utc"] =
        some (.str "2024-04-17T22:13:00") ∧
      m.getPath ["flight", "foxsi4", "launch_time", "clock"] = some (.int 0) := by
  refine ⟨cfg, ?_, h3, h4⟩
  unfold load_obs_info load_yaml
  rw [h1]
  exact h2

theorem load_obs_info_launch_values_witness :
    ∃ m, (load_obs_info ⟨fun _ => some "t"⟩ ⟨fun _ => .ok launch_cfg⟩).1 = .ok m ∧
      m.getPath ["flight", "foxsi4", "launch_time", "utc"] =
        some (.str "2024-04-17T22:13:00") ∧
      m.getPath ["flight", "foxsi4", "launch_time", "clock"] = some (.int 0) :=
  load_obs_info_launch_values ⟨fun _ => some "t"⟩ ⟨fun _ => .ok launch_cfg⟩
    "t" launch_cfg rfl rfl (by rfl) (by rfl)

end Foxsi4
